import Mathlib

/-!
Verification of the core processing logic of `gif_bg_remover.py`
(repository `GIF_Background_Remover`): the background-color classifier
`color_within_fuzz` and the transparency / bounding-box / crop / palette
pipeline of `process_gif`.

Colors are 8-bit RGB triples; pixels are RGBA quadruples.  Channel values
are modelled as natural numbers.  The Python classifier compares the real
Euclidean distance `sqrt(dr² + dg² + db²)` with the threshold
`fuzz / 100 * 255`; since both sides are nonnegative this comparison is
equivalent to the exact integer comparison
`(dr² + dg² + db²) * 100² ≤ (fuzz * 255)²`, which is the executable form
used below (the equivalence with the square-root formulation is proved in
`color_within_fuzz_iff_dist_le`).
-/

/-- An RGB color: a triple of (8-bit) channel values, as selected by the
user and as compared by `color_within_fuzz` (`pixel_color[:3]`). -/
structure Color where
  r : ℕ
  g : ℕ
  b : ℕ
  deriving DecidableEq, Repr

/-- An RGBA pixel, as produced by `frame.convert('RGBA')`. -/
structure RGBA where
  r : ℕ
  g : ℕ
  b : ℕ
  a : ℕ
  deriving DecidableEq, Repr

/-- The RGB part of an RGBA pixel (`item[:3]` in the source). -/
def RGBA.rgb (p : RGBA) : Color := ⟨p.r, p.g, p.b⟩

/-- Absolute difference of two channel values:
`abs(pixel_color[i] - target_color[i])` (Python ints, so the subtraction
is exact and `abs` folds it to a natural number). -/
def channelDiff (x y : ℕ) : ℕ := ((x : ℤ) - (y : ℤ)).natAbs

/-- Squared Euclidean RGB distance `r_diff ** 2 + g_diff ** 2 + b_diff ** 2`
from `color_within_fuzz`. -/
def dist2 (p t : Color) : ℕ :=
  channelDiff p.r t.r ^ 2 + channelDiff p.g t.g ^ 2 + channelDiff p.b t.b ^ 2

/-- Embedding of `GifBackgroundRemover.color_within_fuzz`:
`distance <= threshold` with `distance = sqrt(dist2)` and
`threshold = fuzz_percentage / 100 * 255`, stated in exact integer
arithmetic by squaring both (nonnegative) sides and clearing the
denominator `100`. -/
def color_within_fuzz (pixel_color target_color : Color) (fuzz_percentage : ℕ) : Bool :=
  decide (dist2 pixel_color target_color * 100 ^ 2 ≤ (fuzz_percentage * 255) ^ 2)

/-- An input frame as yielded by `ImageSequence.Iterator(img)` after
`convert('RGBA')`: its pixel data as a flat row-major list
(`frame_rgba.getdata()`), plus the duration from `frame.info`, absent when
the source omits it (`frame.info.get("duration", 100)` supplies 100). -/
structure InFrame where
  data : List RGBA
  duration : Option ℕ
  deriving DecidableEq, Repr

/-- Replacement of one pixel in the transparency pass: background pixels
become `(0, 0, 0, 0)`, all others are appended unchanged. -/
def transparentPixel (target : Color) (fuzz : ℕ) (item : RGBA) : RGBA :=
  if color_within_fuzz item.rgb target fuzz then ⟨0, 0, 0, 0⟩ else item

/-- The `new_data` list built by the per-frame loop of `process_gif`. -/
def transparentize (target : Color) (fuzz : ℕ) (data : List RGBA) : List RGBA :=
  data.map (transparentPixel target fuzz)

/-- The `non_transparent_pixels` list of the per-frame loop: coordinates
`(index % width, index // width)` of every pixel not classified as
background. -/
def nonTransparentCoords (target : Color) (fuzz w : ℕ) (data : List RGBA) :
    List (ℕ × ℕ) :=
  (data.enum.filter fun p => ! color_within_fuzz p.2.rgb target fuzz).map
    fun p => (p.1 % w, p.1 / w)

/-- The running bounding box `(min_x, min_y, max_x, max_y)`. -/
structure BBox where
  minX : ℕ
  minY : ℕ
  maxX : ℕ
  maxY : ℕ
  deriving DecidableEq, Repr

/-- One step of the `for x, y in non_transparent_pixels` loop: component-wise
min/max update of the running box. -/
def updateBBox (b : BBox) (c : ℕ × ℕ) : BBox :=
  ⟨min b.minX c.1, min b.minY c.2, max b.maxX c.1, max b.maxY c.2⟩

/-- Folding one frame's non-transparent coordinates into the running box. -/
def foldBBox (b : BBox) (coords : List (ℕ × ℕ)) : BBox :=
  coords.foldl updateBBox b

/-- The global bounding box after the transparency pass over all frames,
starting from `min_x = img.width`, `min_y = img.height`, `max_x = 0`,
`max_y = 0`. -/
def gifBBox (target : Color) (fuzz w h : ℕ) (frames : List InFrame) : BBox :=
  frames.foldl
    (fun b f => foldBBox b (nonTransparentCoords target fuzz w f.data)) ⟨w, h, 0, 0⟩

/-- The abort condition `min_x > max_x or min_y > max_y`. -/
def bboxEmpty (b : BBox) : Bool :=
  decide (b.maxX < b.minX ∨ b.maxY < b.minY)

/-- The `temp_frames` list: each frame's transparency-processed data paired
with its duration (default 100). -/
def tempFrames (target : Color) (fuzz : ℕ) (frames : List InFrame) :
    List (List RGBA × ℕ) :=
  frames.map fun f => (transparentize target fuzz f.data, f.duration.getD 100)

/-- PIL `Image.crop((l, u, r, lo))` on a `w × h` row-major RGBA frame: the
result is `(r - l) × (lo - u)`, reading the source inside its bounds and
filling with zero pixels outside them. -/
def cropData (w h : ℕ) (data : List RGBA) (l u r lo : ℕ) : List RGBA :=
  (List.range ((lo - u) * (r - l))).map fun i =>
    let x := l + i % (r - l)
    let y := u + i / (r - l)
    if x < w ∧ y < h then data.getD (y * w + x) ⟨0, 0, 0, 0⟩ else ⟨0, 0, 0, 0⟩

/-- The cropped frames with their durations: every `temp_frames` entry is
cropped to the one global rectangle `(min_x, min_y, max_x + 1, max_y + 1)`. -/
def croppedFrames (target : Color) (fuzz w h : ℕ) (b : BBox)
    (frames : List InFrame) : List (List RGBA × ℕ) :=
  (tempFrames target fuzz frames).map fun fd =>
    (cropData w h fd.1 b.minX b.minY (b.maxX + 1) (b.maxY + 1), fd.2)

/-- The external adaptive quantizer `convert('P', palette=Image.ADAPTIVE,
colors=255)`, kept abstract: from the cropped RGBA data it yields the flat
palette list (`getpalette()`, 768 values for a 256-entry palette) and the
indexed pixel data (`getdata()`). -/
def Quantizer : Type := List RGBA → List ℕ × List ℕ

/-- An output indexed frame: flat palette, palette-index pixel data, and the
frame's `info['transparency']` index. -/
structure OutFrame where
  palette : List ℕ
  data : List ℕ
  transparency : ℕ
  deriving DecidableEq, Repr, Inhabited

/-- The palette-remap step of `process_gif` on one cropped frame: quantize,
overwrite palette entry 255 (flat positions `255*3 .. 255*3+2`) with the
selected background color, force index 255 wherever the cropped frame's
alpha is 0, and record 255 as the transparent index. -/
def remapFrame (Q : Quantizer) (target : Color) (cropped : List RGBA) : OutFrame :=
  let q := Q cropped
  let palette := ((q.1.set (255 * 3) target.r).set (255 * 3 + 1) target.g).set
    (255 * 3 + 2) target.b
  let data := (List.range q.2.length).map fun i =>
    if (cropped.getD i ⟨0, 0, 0, 0⟩).a = 0 then 255 else q.2.getD i 0
  ⟨palette, data, 255⟩

/-- The encoded animation handed to `save`: processed frames, their
durations, `loop=0`, `transparency=255`, `disposal=2`. -/
structure Output where
  frames : List OutFrame
  durations : List ℕ
  loop : ℕ
  transparency : ℕ
  disposal : ℕ
  deriving DecidableEq, Repr, Inhabited

/-- Embedding of the processing core of `GifBackgroundRemover.process_gif`:
transparency pass with running bounding box, the all-transparent abort
(`none`: no output file is produced), crop of every frame to the single
global rectangle, per-frame quantization and palette remap, and the final
save parameters.  (The clamped `new_width`/`new_height` of the source are
used only in a status message and do not affect the output.) -/
def process_gif (Q : Quantizer) (target : Color) (fuzz w h : ℕ)
    (frames : List InFrame) : Option Output :=
  let b := gifBBox target fuzz w h frames
  if bboxEmpty b then none
  else
    let cropped := croppedFrames target fuzz w h b frames
    some ⟨cropped.map fun cd => remapFrame Q target cd.1,
      cropped.map Prod.snd, 0, 255, 2⟩

/-- A concrete quantizer standing in for PIL's adaptive quantization:
constant palette, constant indices of the right lengths. -/
def exQ : Quantizer := fun d => (List.replicate 768 7, List.replicate d.length 3)

/-- A 1×1 frame whose only pixel survives a black-background removal. -/
def exFrameKeep : InFrame := ⟨[⟨9, 9, 9, 255⟩], none⟩

/-- A 1×1 frame whose only pixel is exactly the background color below. -/
def exFrameBg : InFrame := ⟨[⟨5, 5, 5, 255⟩], some 40⟩

/-- The concrete output of `process_gif` on the surviving 1×1 frame. -/
def exOut : Output := (process_gif exQ ⟨0, 0, 0⟩ 0 1 1 [exFrameKeep]).getD default

/-- The cropped frames of the concrete surviving example. -/
def exCropped : List (List RGBA × ℕ) :=
  croppedFrames ⟨0, 0, 0⟩ 0 1 1 (gifBBox ⟨0, 0, 0⟩ 0 1 1 [exFrameKeep]) [exFrameKeep]

/-- The bounding box of the concrete surviving example. -/
def exBBox : BBox := gifBBox ⟨0, 0, 0⟩ 0 1 1 [exFrameKeep]

theorem color_within_fuzz_iff (p t : Color) (f : ℕ) :
    color_within_fuzz p t f = true ↔ dist2 p t * 100 ^ 2 ≤ (f * 255) ^ 2 := by
  simp [color_within_fuzz]

theorem natAbs_sq_real (z : ℤ) : ((z.natAbs : ℝ)) ^ 2 = ((z : ℝ)) ^ 2 := by
  rw [Int.cast_natAbs, Int.cast_abs, sq_abs]

/-- The natural number `dist2` casts to the real sum of squared channel
differences. -/
theorem dist2_cast (p t : Color) :
    ((dist2 p t : ℕ) : ℝ) =
      ((p.r : ℝ) - (t.r : ℝ)) ^ 2 + ((p.g : ℝ) - (t.g : ℝ)) ^ 2
        + ((p.b : ℝ) - (t.b : ℝ)) ^ 2 := by
  have hr := natAbs_sq_real ((p.r : ℤ) - (t.r : ℤ))
  have hg := natAbs_sq_real ((p.g : ℤ) - (t.g : ℤ))
  have hb := natAbs_sq_real ((p.b : ℤ) - (t.b : ℤ))
  unfold dist2 channelDiff
  push_cast
  push_cast at hr hg hb
  rw [hr, hg, hb]

/-- C1: the classifier returns true exactly when the Euclidean RGB distance
is at most `fuzz / 100 * 255`, the boundary included.  Proved for every
natural `fuzz` and arbitrary channel values, which covers in particular all
8-bit channels and `fuzz ∈ [0, 100]`. -/
theorem color_within_fuzz_iff_dist_le (p t : Color) (fuzz : ℕ) :
    color_within_fuzz p t fuzz = true ↔
      Real.sqrt (((p.r : ℝ) - (t.r : ℝ)) ^ 2 + ((p.g : ℝ) - (t.g : ℝ)) ^ 2
          + ((p.b : ℝ) - (t.b : ℝ)) ^ 2) ≤ (fuzz : ℝ) / 100 * 255 := by
  rw [color_within_fuzz_iff, ← dist2_cast]
  have hT : (0 : ℝ) ≤ (fuzz : ℝ) / 100 * 255 := by positivity
  rw [Real.sqrt_le_left hT]
  have h100 : (0 : ℝ) < 100 ^ 2 := by norm_num
  constructor
  · intro h
    have hcast : ((dist2 p t : ℕ) : ℝ) * 100 ^ 2 ≤ (((fuzz * 255 : ℕ) : ℝ)) ^ 2 := by
      exact_mod_cast h
    push_cast at hcast
    rw [div_mul_eq_mul_div, div_pow, le_div_iff₀ h100]
    calc ((dist2 p t : ℕ) : ℝ) * 100 ^ 2 ≤ ((fuzz : ℝ) * 255) ^ 2 := hcast
      _ = ((fuzz : ℝ) * 255) ^ 2 := rfl
  · intro h
    rw [div_mul_eq_mul_div, div_pow, le_div_iff₀ h100] at h
    have hcast : ((dist2 p t : ℕ) : ℝ) * 100 ^ 2 ≤ (((fuzz * 255 : ℕ) : ℝ)) ^ 2 := by
      push_cast
      exact h
    exact_mod_cast hcast

/-- C3 counterexample: at `fuzz = 100` the threshold is `255`, but black is
at distance `255 * sqrt 3 > 255` from white, so black is not classified as
background against a white target. -/
theorem fuzz100_not_all_background :
    color_within_fuzz ⟨0, 0, 0⟩ ⟨255, 255, 255⟩ 100 = false := by decide

/-- C3 amended: at `fuzz = 100` a color is classified as background exactly
when its squared Euclidean RGB distance from the target is at most `255²`;
colors farther away than `255` (such as black against white) are not. -/
theorem fuzz100_background_iff (p t : Color) :
    color_within_fuzz p t 100 = true ↔ dist2 p t ≤ 255 ^ 2 := by
  rw [color_within_fuzz_iff]
  constructor <;> intro h <;> omega

theorem channelDiff_eq_zero (x y : ℕ) : channelDiff x y = 0 ↔ x = y := by
  unfold channelDiff
  rw [Int.natAbs_eq_zero, sub_eq_zero]
  exact_mod_cast Iff.rfl

/-- C4: at `fuzz = 0` the classifier accepts exactly the pixels whose RGB
triple equals the target's RGB triple. -/
theorem fuzz0_background_iff_eq (p t : Color) :
    color_within_fuzz p t 0 = true ↔ p = t := by
  rw [color_within_fuzz_iff]
  have h : dist2 p t * 100 ^ 2 ≤ (0 * 255) ^ 2 ↔ dist2 p t = 0 := by omega
  rw [h]
  unfold dist2
  constructor
  · intro h0
    have hr2 : channelDiff p.r t.r ^ 2 = 0 := by omega
    have hg2 : channelDiff p.g t.g ^ 2 = 0 := by omega
    have hb2 : channelDiff p.b t.b ^ 2 = 0 := by omega
    have hr : channelDiff p.r t.r = 0 := by simpa using hr2
    have hg : channelDiff p.g t.g = 0 := by simpa using hg2
    have hb : channelDiff p.b t.b = 0 := by simpa using hb2
    rw [channelDiff_eq_zero] at hr hg hb
    cases p
    cases t
    simp_all
  · intro h0
    subst h0
    simp [channelDiff]

/-- C5: the classifier is monotone in the fuzz percentage: raising the fuzz
never turns a background pixel into a non-background one. -/
theorem color_within_fuzz_mono (p t : Color) (f₁ f₂ : ℕ) (hf : f₁ ≤ f₂)
    (h : color_within_fuzz p t f₁ = true) : color_within_fuzz p t f₂ = true := by
  rw [color_within_fuzz_iff] at h ⊢
  have hmul : f₁ * 255 ≤ f₂ * 255 := Nat.mul_le_mul_right 255 hf
  calc dist2 p t * 100 ^ 2 ≤ (f₁ * 255) ^ 2 := h
    _ ≤ (f₂ * 255) ^ 2 := Nat.pow_le_pow_left hmul 2

/-- Witness for C5 at a concrete input. -/
theorem color_within_fuzz_mono_witness :
    color_within_fuzz ⟨3, 4, 5⟩ ⟨3, 4, 5⟩ 1 = true :=
  color_within_fuzz_mono ⟨3, 4, 5⟩ ⟨3, 4, 5⟩ 0 1 (by decide) (by decide)

theorem channelDiff_comm (x y : ℕ) : channelDiff x y = channelDiff y x := by
  unfold channelDiff
  rw [← Int.natAbs_neg, neg_sub]

theorem dist2_comm (p t : Color) : dist2 p t = dist2 t p := by
  unfold dist2
  rw [channelDiff_comm p.r, channelDiff_comm p.g, channelDiff_comm p.b]

/-- C10: the classifier is symmetric in its two color arguments. -/
theorem color_within_fuzz_comm (p t : Color) (f : ℕ) :
    color_within_fuzz p t f = color_within_fuzz t p f := by
  unfold color_within_fuzz
  rw [dist2_comm]

/-- C2: when the running bounding box after the transparency pass satisfies
`min_x > max_x` or `min_y > max_y` (no non-transparent pixel anywhere),
`process_gif` aborts before cropping and encoding and produces no output. -/
theorem process_gif_none_of_empty_bbox (Q : Quantizer) (target : Color)
    (fuzz w h : ℕ) (frames : List InFrame)
    (hemp : bboxEmpty (gifBBox target fuzz w h frames) = true) :
    process_gif Q target fuzz w h frames = none := by
  unfold process_gif
  simp [hemp]

/-- Witness for C2: a solid frame of the selected color at fuzz 0 yields no
output. -/
theorem process_gif_none_of_empty_bbox_witness :
    process_gif exQ ⟨5, 5, 5⟩ 0 1 1 [exFrameBg] = none :=
  process_gif_none_of_empty_bbox exQ ⟨5, 5, 5⟩ 0 1 1 [exFrameBg] (by decide)

/-- C6: the transparency pass keeps the frame's dimensions and maps every
background pixel to `(0, 0, 0, 0)` and every other pixel to itself, alpha
included; no other output value occurs. -/
theorem transparentize_spec (target : Color) (fuzz : ℕ) (data : List RGBA) :
    (transparentize target fuzz data).length = data.length ∧
    ∀ i, i < data.length →
      (transparentize target fuzz data).getD i ⟨0, 0, 0, 0⟩ =
        if color_within_fuzz (data.getD i ⟨0, 0, 0, 0⟩).rgb target fuzz
        then ⟨0, 0, 0, 0⟩ else data.getD i ⟨0, 0, 0, 0⟩ := by
  refine ⟨by simp [transparentize], ?_⟩
  intro i hi
  have hfix : transparentPixel target fuzz ⟨0, 0, 0, 0⟩ = ⟨0, 0, 0, 0⟩ := by
    unfold transparentPixel
    split <;> rfl
  unfold transparentize
  conv_lhs => rw [← hfix]
  rw [List.getD_map]
  rfl

/-- Witness for C6 at a concrete frame and pixel. -/
theorem transparentize_spec_witness :
    (transparentize ⟨5, 5, 5⟩ 10 [⟨9, 9, 9, 255⟩, ⟨5, 5, 5, 255⟩]).getD 1 ⟨0, 0, 0, 0⟩ =
      if color_within_fuzz (RGBA.rgb ⟨5, 5, 5, 255⟩) ⟨5, 5, 5⟩ 10
      then ⟨0, 0, 0, 0⟩ else ⟨5, 5, 5, 255⟩ :=
  (transparentize_spec ⟨5, 5, 5⟩ 10 [⟨9, 9, 9, 255⟩, ⟨5, 5, 5, 255⟩]).2 1 (by decide)

/-- C7: whenever `process_gif` produces an output, its per-frame durations
equal the input durations element-for-element and in order, with 100
substituted for a missing source duration. -/
theorem process_gif_durations (Q : Quantizer) (target : Color) (fuzz w h : ℕ)
    (frames : List InFrame) (out : Output)
    (hout : process_gif Q target fuzz w h frames = some out) :
    out.durations = frames.map fun f => f.duration.getD 100 := by
  unfold process_gif at hout
  by_cases hb : bboxEmpty (gifBBox target fuzz w h frames) = true
  · simp [hb] at hout
  · simp only [hb, Bool.false_eq_true, if_false, Option.some.injEq] at hout
    rw [← hout]
    simp only [croppedFrames, tempFrames, List.map_map]
    rfl

/-- Witness for C7: the missing source duration comes out as 100. -/
theorem process_gif_durations_witness : exOut.durations = [100] :=
  process_gif_durations exQ ⟨0, 0, 0⟩ 0 1 1 [exFrameKeep] exOut (by rfl)

theorem remapFrame_palette (Q : Quantizer) (target : Color) (cropped : List RGBA)
    (hP : (Q cropped).1.length = 768) :
    (remapFrame Q target cropped).palette.getD (255 * 3) 0 = target.r ∧
    (remapFrame Q target cropped).palette.getD (255 * 3 + 1) 0 = target.g ∧
    (remapFrame Q target cropped).palette.getD (255 * 3 + 2) 0 = target.b := by
  unfold remapFrame
  refine ⟨?_, ?_, ?_⟩ <;>
    simp [List.getD_eq_getElem?_getD, List.getElem?_set_ne, List.getElem?_set_self, hP]

theorem remapFrame_data (Q : Quantizer) (target : Color) (cropped : List RGBA) :
    (remapFrame Q target cropped).transparency = 255 ∧
    (remapFrame Q target cropped).data.length = (Q cropped).2.length ∧
    ∀ i, i < (Q cropped).2.length →
      (remapFrame Q target cropped).data.getD i 0 =
        if (cropped.getD i ⟨0, 0, 0, 0⟩).a = 0 then 255
        else (Q cropped).2.getD i 0 := by
  refine ⟨rfl, by simp [remapFrame], ?_⟩
  intro i hi
  unfold remapFrame
  simp [List.getD_eq_getElem?_getD, List.getElem?_map, List.getElem?_range hi]

/-- C8: for every output indexed frame, palette entry 255 (flat positions
765–767) holds the selected background color regardless of the quantizer's
output, pixels transparent in the cropped RGBA frame get index 255 while
all others keep the quantizer's index, and 255 is the frame's transparent
index.  `hP`/`hL` say the quantizer returns a 256-entry flat palette and
one index per pixel, as PIL's `convert('P', ...)` does. -/
theorem process_gif_palette_remap (Q : Quantizer) (target : Color)
    (fuzz w h : ℕ) (frames : List InFrame) (out : Output)
    (cropped : List (List RGBA × ℕ))
    (hP : ∀ d, (Q d).1.length = 768)
    (hL : ∀ d, (Q d).2.length = d.length)
    (hc : cropped = croppedFrames target fuzz w h (gifBBox target fuzz w h frames) frames)
    (hout : process_gif Q target fuzz w h frames = some out)
    (j : ℕ) (hj : j < out.frames.length) :
    (out.frames.getD j default).palette.getD (255 * 3) 0 = target.r ∧
    (out.frames.getD j default).palette.getD (255 * 3 + 1) 0 = target.g ∧
    (out.frames.getD j default).palette.getD (255 * 3 + 2) 0 = target.b ∧
    (out.frames.getD j default).transparency = 255 ∧
    (out.frames.getD j default).data.length = (cropped.getD j ([], 0)).1.length ∧
    ∀ i, i < (cropped.getD j ([], 0)).1.length →
      (out.frames.getD j default).data.getD i 0 =
        if ((cropped.getD j ([], 0)).1.getD i ⟨0, 0, 0, 0⟩).a = 0 then 255
        else (Q (cropped.getD j ([], 0)).1).2.getD i 0 := by
  unfold process_gif at hout
  by_cases hb : bboxEmpty (gifBBox target fuzz w h frames) = true
  · simp [hb] at hout
  · simp only [hb, Bool.false_eq_true, if_false, Option.some.injEq] at hout
    subst hout
    subst hc
    set L := croppedFrames target fuzz w h (gifBBox target fuzz w h frames) frames with hLdef
    have hj' : j < L.length := by simpa using hj
    have hgetj : L[j]? = some (L.getD j ([], 0)) := by
      rw [List.getD_eq_getElem?_getD, List.getElem?_eq_getElem hj']
      rfl
    have hfr : (Output.mk (L.map fun cd => remapFrame Q target cd.1)
          (L.map Prod.snd) 0 255 2).frames.getD j default =
        remapFrame Q target (L.getD j ([], 0)).1 := by
      show (L.map fun cd => remapFrame Q target cd.1).getD j default =
        remapFrame Q target (L.getD j ([], 0)).1
      rw [List.getD_eq_getElem?_getD, List.getElem?_map, hgetj]
      rfl
    rw [hfr]
    have hpal := remapFrame_palette Q target (L.getD j ([], 0)).1 (hP _)
    have hdat := remapFrame_data Q target (L.getD j ([], 0)).1
    have hlen : (Q (L.getD j ([], 0)).1).2.length = (L.getD j ([], 0)).1.length := hL _
    refine ⟨hpal.1, hpal.2.1, hpal.2.2, hdat.1, ?_, ?_⟩
    · rw [hdat.2.1, hlen]
    · intro i hi
      exact hdat.2.2 i (by omega)

/-- Witness for C8: palette entry 255 of the concrete output holds the
background color, and the surviving opaque pixel keeps its quantizer
index. -/
theorem process_gif_palette_remap_witness :
    (exOut.frames.getD 0 default).palette.getD (255 * 3) 0 = 0 ∧
    (exOut.frames.getD 0 default).data.getD 0 0 =
      (if ((exCropped.getD 0 ([], 0)).1.getD 0 ⟨0, 0, 0, 0⟩).a = 0 then 255
       else (exQ (exCropped.getD 0 ([], 0)).1).2.getD 0 0) :=
  ⟨(process_gif_palette_remap exQ ⟨0, 0, 0⟩ 0 1 1 [exFrameKeep] exOut exCropped
      (fun d => by simp only [exQ, List.length_replicate]) (fun d => by simp only [exQ, List.length_replicate]) rfl rfl 0 (by decide)).1,
   (process_gif_palette_remap exQ ⟨0, 0, 0⟩ 0 1 1 [exFrameKeep] exOut exCropped
      (fun d => by simp only [exQ, List.length_replicate]) (fun d => by simp only [exQ, List.length_replicate]) rfl rfl 0
      (by decide)).2.2.2.2.2 0 (by decide)⟩

theorem nonTransparentCoords_lt (target : Color) (fuzz w h : ℕ)
    (data : List RGBA) (hw : 0 < w) (hlen : data.length = w * h) :
    ∀ c ∈ nonTransparentCoords target fuzz w data, c.1 < w ∧ c.2 < h := by
  intro c hc
  unfold nonTransparentCoords at hc
  rw [List.mem_map] at hc
  obtain ⟨p, hp, rfl⟩ := hc
  rw [List.mem_filter] at hp
  have hple : p.1 < data.length :=
    (List.getElem?_eq_some_iff.mp (List.mem_enum_iff_getElem?.mp hp.1)).1
  exact ⟨Nat.mod_lt _ hw, Nat.div_lt_of_lt_mul (hlen ▸ hple)⟩

theorem foldBBox_max_lt (w h : ℕ) (coords : List (ℕ × ℕ)) :
    ∀ b : BBox, (∀ c ∈ coords, c.1 < w ∧ c.2 < h) → b.maxX < w → b.maxY < h →
      (foldBBox b coords).maxX < w ∧ (foldBBox b coords).maxY < h := by
  induction coords with
  | nil => exact fun b _ h1 h2 => ⟨h1, h2⟩
  | cons c cs ih =>
    intro b hc h1 h2
    have hcc := hc c (List.mem_cons_self c cs)
    exact ih (updateBBox b c) (fun x hx => hc x (List.mem_cons_of_mem c hx))
      (max_lt h1 hcc.1) (max_lt h2 hcc.2)

/-- The global bounding box only ever records coordinates of actual pixels,
so its maxima stay inside the frame. -/
theorem gifBBox_max_lt (target : Color) (fuzz w h : ℕ) (frames : List InFrame)
    (hw : 0 < w) (hh : 0 < h)
    (hlen : ∀ f ∈ frames, f.data.length = w * h) :
    (gifBBox target fuzz w h frames).maxX < w ∧
    (gifBBox target fuzz w h frames).maxY < h := by
  unfold gifBBox
  have main : ∀ fs : List InFrame, (∀ f ∈ fs, f.data.length = w * h) →
      ∀ b : BBox, b.maxX < w → b.maxY < h →
      ((fs.foldl (fun b f => foldBBox b (nonTransparentCoords target fuzz w f.data))
          b).maxX < w ∧
        (fs.foldl (fun b f => foldBBox b (nonTransparentCoords target fuzz w f.data))
          b).maxY < h) := by
    intro fs
    induction fs with
    | nil => exact fun _ b h1 h2 => ⟨h1, h2⟩
    | cons f fs ih =>
      intro hl b h1 h2
      have hf := hl f (List.mem_cons_self f fs)
      have hstep := foldBBox_max_lt w h (nonTransparentCoords target fuzz w f.data) b
        (nonTransparentCoords_lt target fuzz w h f.data hw hf) h1 h2
      exact ih (fun x hx => hl x (List.mem_cons_of_mem f hx)) _ hstep.1 hstep.2
  exact main frames hlen ⟨w, h, 0, 0⟩ hw hh

/-- C9: with a non-empty bounding box, every frame is cropped to the one
global rectangle `(min_x, min_y, max_x + 1, max_y + 1)`, and the cropped
width and height never exceed the original `w × h`. -/
theorem process_gif_crop (target : Color) (fuzz w h : ℕ) (frames : List InFrame)
    (b : BBox) (hw : 0 < w) (hh : 0 < h)
    (hlen : ∀ f ∈ frames, f.data.length = w * h)
    (hb : b = gifBBox target fuzz w h frames)
    (hne : bboxEmpty b = false) :
    b.minX ≤ b.maxX ∧ b.minY ≤ b.maxY ∧ b.maxX < w ∧ b.maxY < h ∧
    b.maxX + 1 - b.minX ≤ w ∧ b.maxY + 1 - b.minY ≤ h ∧
    croppedFrames target fuzz w h b frames =
      (tempFrames target fuzz frames).map (fun fd =>
        (cropData w h fd.1 b.minX b.minY (b.maxX + 1) (b.maxY + 1), fd.2)) ∧
    ∀ cd ∈ croppedFrames target fuzz w h b frames,
      cd.1.length = (b.maxY + 1 - b.minY) * (b.maxX + 1 - b.minX) := by
  have hmax := hb ▸ gifBBox_max_lt target fuzz w h frames hw hh hlen
  have hne' : ¬ (b.maxX < b.minX ∨ b.maxY < b.minY) :=
    of_decide_eq_false hne
  refine ⟨by omega, by omega, hmax.1, hmax.2, by omega, by omega, rfl, ?_⟩
  intro cd hcd
  unfold croppedFrames at hcd
  rw [List.mem_map] at hcd
  obtain ⟨fd, _, rfl⟩ := hcd
  simp [cropData]

/-- Witness for C9 on the concrete 1×1 example. -/
theorem process_gif_crop_witness :
    exBBox.minX ≤ exBBox.maxX ∧ exBBox.minY ≤ exBBox.maxY ∧
    exBBox.maxX < 1 ∧ exBBox.maxY < 1 ∧
    exBBox.maxX + 1 - exBBox.minX ≤ 1 ∧ exBBox.maxY + 1 - exBBox.minY ≤ 1 ∧
    croppedFrames ⟨0, 0, 0⟩ 0 1 1 exBBox [exFrameKeep] =
      (tempFrames ⟨0, 0, 0⟩ 0 [exFrameKeep]).map (fun fd =>
        (cropData 1 1 fd.1 exBBox.minX exBBox.minY (exBBox.maxX + 1)
          (exBBox.maxY + 1), fd.2)) ∧
    ∀ cd ∈ croppedFrames ⟨0, 0, 0⟩ 0 1 1 exBBox [exFrameKeep],
      cd.1.length = (exBBox.maxY + 1 - exBBox.minY) * (exBBox.maxX + 1 - exBBox.minX) :=
  process_gif_crop ⟨0, 0, 0⟩ 0 1 1 [exFrameKeep] exBBox (by decide) (by decide)
    (by decide) rfl (by decide)
